import Mathlib

/-!
Verification of the static-site-generator build core (cache, parallel
sweep, HTML component transformer, syntax-highlight transformer, path
resolution) against its specification.  The Rust sources are shallowly
embedded: pure functions become Lean functions on `String`/`List Char`,
external collaborators (file system, template engine, markdown renderer,
syntect highlighter) become explicit function parameters, and the
character-scanning loops become fuel-indexed structural recursions (the
fuel passed by each wrapper strictly exceeds the number of loop
iterations, which consume at least one character each).
-/

namespace Ssg

/-! ## Character-list helpers (Rust `str` primitives) -/

/-- Both-ends whitespace trim, `str::trim`. -/
def trimWsL (l : List Char) : List Char :=
  ((l.dropWhile Char.isWhitespace).reverse.dropWhile Char.isWhitespace).reverse

/-- Rust `str::trim_start_matches(c)`: drop every leading occurrence of `c`. -/
def trimStartMatches (c : Char) (l : List Char) : List Char :=
  l.dropWhile (· = c)

/-- Rust `str::trim_end_matches(c)`: drop every trailing occurrence of `c`. -/
def trimEndMatches (c : Char) (l : List Char) : List Char :=
  (l.reverse.dropWhile (· = c)).reverse

/-- Rust `str::trim_matches(c)`: both ends. -/
def trimBothMatches (c : Char) (l : List Char) : List Char :=
  trimEndMatches c (trimStartMatches c l)

/-- Rust `str::split(c)`: Rust semantics (empty input gives one empty piece,
    separators at the ends give empty pieces). -/
def splitOnChar (c : Char) : List Char → List (List Char)
  | [] => [[]]
  | x :: xs =>
    if x = c then
      [] :: splitOnChar c xs
    else
      match splitOnChar c xs with
      | h :: t => (x :: h) :: t
      | [] => [[x]]

/-- Rust `str::splitn(2, ' ')`: the part before the first space, and the
    remainder after it when a space exists. -/
def splitFirstSpace : List Char → (List Char × Option (List Char))
  | [] => ([], none)
  | c :: cs =>
    if c = ' ' then ([], some cs)
    else
      let r := splitFirstSpace cs
      (c :: r.1, r.2)

/-- First index at which `pat` occurs in `l` (`str::find` on ASCII input,
    where byte and character indices agree). -/
def findSubstr (pat : List Char) : List Char → Option Nat
  | [] => if pat.isEmpty then some 0 else none
  | c :: cs =>
    if pat.isPrefixOf (c :: cs) then some 0
    else (findSubstr pat cs).map (· + 1)

/-- Last index at which `pat` occurs in `l` (`str::rfind`). -/
def rfindSubstr (pat : List Char) : List Char → Option Nat
  | [] => if pat.isEmpty then some 0 else none
  | c :: cs =>
    match rfindSubstr pat cs with
    | some i => some (i + 1)
    | none => if pat.isPrefixOf (c :: cs) then some 0 else none

/-- Left-to-right non-overlapping replacement of every occurrence of
    `pat` (`str::replace`); fuel bounds the number of scanned positions. -/
def replaceAllL (pat rep : List Char) : Nat → List Char → List Char
  | 0, l => l
  | fuel + 1, l =>
    match l with
    | [] => []
    | c :: cs =>
      if pat ≠ [] ∧ pat.isPrefixOf l then
        rep ++ replaceAllL pat rep fuel (l.drop pat.length)
      else
        c :: replaceAllL pat rep fuel cs

/-! ## `cache.rs` -/

/-- Entry of the persisted build cache, `cache.rs` `CacheEntry`. -/
structure CacheEntry where
  file_hash : String
  template_hash : String
  output_path : String
  built_at : String
deriving DecidableEq, Repr

/-- The build cache, `cache.rs` `BuildCache`; the `HashMap` of entries is
    embedded as an association list keyed by the lossily-stringified path. -/
structure BuildCache where
  version : String
  entries : List (String × CacheEntry)
deriving DecidableEq, Repr

/-- Embeds `BuildCache::needs_rebuild` (`cache.rs`): rebuild when no entry exists
    for the path, or either stored hash differs from the current one. -/
def BuildCache.needs_rebuild (c : BuildCache) (path current_hash current_template_hash : String) : Bool :=
  match c.entries.lookup path with
  | none => true
  | some entry =>
    entry.file_hash != current_hash || entry.template_hash != current_template_hash

/-- Embeds `BuildCache::update_entry` (`cache.rs`): insert or overwrite the entry
    for a path (`built_at` is the externally supplied timestamp). -/
def BuildCache.update_entry (c : BuildCache) (path hash template_hash output built_at : String) : BuildCache :=
  { c with entries :=
      (c.entries.filter (fun p => p.1 != path)) ++
        [(path, ⟨hash, template_hash, output, built_at⟩)] }

/-! ## `cache.rs` `hash_directory`

The directory walk and the file reads are external effects; they enter as
the list of walk results and a read function.  The blake3 hasher is
abstracted as the sequence of byte-chunks fed to it (the digest is a
function of exactly that sequence). -/

/-- One result of the recursive directory walk: an enumeration error, or
    a path together with whether it is a regular file. -/
inductive WalkEntry where
  | err : String → WalkEntry
  | entry : String → Bool → WalkEntry
deriving DecidableEq, Repr

/-- Insertion of a path into a sorted list (ordering by `String` order,
    `sort_by_key` on the path). -/
def insertSorted (p : String) : List String → List String
  | [] => [p]
  | q :: qs => if p ≤ q then p :: q :: qs else q :: insertSorted p qs

/-- Sort paths, `files.sort_by_key(|e| e.path().to_path_buf())`. -/
def sortPaths (l : List String) : List String :=
  l.foldr insertSorted []

/-- Embeds `hash_directory` (`cache.rs`): keep only walk results that are `Ok`
    and regular files, sort by path, and feed each readable file's path
    and content into the hasher; unreadable files are skipped and the
    function always returns `Ok`. -/
def hash_directory (walk : List WalkEntry) (readFile : String → Option String) :
    Except String (List String) :=
  let files :=
    ((walk.filterMap fun e =>
        match e with
        | .err _ => none
        | .entry p isFile => some (p, isFile)).filter (fun e => e.2)).map Prod.fst
  let sorted := sortPaths files
  Except.ok (sorted.foldl
    (fun hasher p =>
      match readFile p with
      | some content => hasher ++ [p, content]
      | none => hasher)
    [])

/-- The chunk sequence contributed by exactly the readable files of a
    path list, in order: each contributes its path then its content. -/
def hashFeed (readFile : String → Option String) (l : List String) : List String :=
  (l.filter fun p => (readFile p).isSome).foldr
    (fun p acc => p :: ((readFile p).toList ++ acc)) []

/-- Keep only non-error walk results. -/
def walkOk (walk : List WalkEntry) : List WalkEntry :=
  walk.filter fun e =>
    match e with
    | .err _ => false
    | .entry _ _ => true

/-! ## `renderer.rs`: the HTML component transformer

The Tera template engine is an external collaborator; it enters as a
lookup predicate and a fallible render function over a key/value context
(contexts and attribute maps are association lists with overwrite-on-
insert semantics, read through `List.lookup`). -/

/-- Model of the Tera template engine: template lookup by name
    (`get_template(..).is_err()` negated) and fallible rendering of a
    named template against a context (`Err` becomes `none`). -/
structure TeraM where
  hasTemplate : String → Bool
  render : String → List (String × String) → Option String

/-- Map insert with overwrite (`HashMap::insert` / `Context::insert`). -/
def ctxInsert (ctx : List (String × String)) (k v : String) : List (String × String) :=
  (ctx.filter fun p => p.1 != k) ++ [(k, v)]

/-- Attribute-string parsing loop of `Renderer::extract_attributes`:
    repeatedly skip spaces, read a key up to `=` or space, then either
    record the bare key as `"true"` or read a (quoted or unquoted)
    value.  Fuel bounds the iterations; every non-final iteration
    consumes at least one character. -/
def parseAttrs : Nat → List Char → List (String × String) → List (String × String)
  | 0, _, attrs => attrs
  | fuel + 1, cs, attrs =>
    let cs := cs.dropWhile (· = ' ')
    let key := cs.takeWhile fun c => c ≠ '=' && c ≠ ' '
    let rest := cs.dropWhile fun c => c ≠ '=' && c ≠ ' '
    if key.isEmpty then attrs
    else
      let rest := rest.dropWhile (· = ' ')
      match rest with
      | '=' :: rest' =>
        let rest'' := rest'.dropWhile (· = ' ')
        match rest'' with
        | q :: tail =>
          if q = '"' || q = '\'' then
            let v := tail.takeWhile (· ≠ q)
            let after := (tail.dropWhile (· ≠ q)).drop 1
            parseAttrs fuel after (ctxInsert attrs (String.mk key) (String.mk v))
          else
            let v := rest''.takeWhile (· ≠ ' ')
            let after := rest''.dropWhile (· ≠ ' ')
            parseAttrs fuel after (ctxInsert attrs (String.mk key) (String.mk v))
        | [] => ctxInsert attrs (String.mk key) ""
      | _ => parseAttrs fuel rest (ctxInsert attrs (String.mk key) "true")

/-- Embeds `Renderer::extract_attributes`: strip the angle brackets and a
    trailing slash from the buffered tag, split off the tag name at the
    first space, and parse the remainder as key/value attributes. -/
def extract_attributes (tag : String) : List (String × String) :=
  let t := trimEndMatches '/' (trimEndMatches '>' (trimStartMatches '<' tag.data))
  match splitFirstSpace t with
  | (_, none) => []
  | (_, some attrString) => parseAttrs (attrString.length + 1) attrString []

/-- Embeds `Renderer::is_url_attribute`. -/
def is_url_attribute (attr : String) : Bool :=
  attr = "src" || attr = "href" || attr = "data" || attr = "poster" || attr = "srcset"

/-- Embeds `Renderer::resolve_path`: absolute URLs, fragments, `data:`/`mailto:`
    values and absolute paths come back trimmed but otherwise unchanged;
    `./`-relative, `../`-relative and bare relative values are resolved
    against the base path. -/
def resolve_path (path base_path : String) : String :=
  let trimmed := trimWsL path.data
  if "http://".data.isPrefixOf trimmed || "https://".data.isPrefixOf trimmed
      || "//".data.isPrefixOf trimmed || "#".data.isPrefixOf trimmed
      || "data:".data.isPrefixOf trimmed || "mailto:".data.isPrefixOf trimmed then
    String.mk trimmed
  else if "/".data.isPrefixOf trimmed then
    String.mk trimmed
  else if "./".data.isPrefixOf trimmed then
    "/" ++ String.mk (trimBothMatches '/' base_path.data) ++ "/" ++ String.mk (trimmed.drop 2)
  else if "../".data.isPrefixOf trimmed then
    let base_parts := splitOnChar '/' (trimBothMatches '/' base_path.data)
    let parts := splitOnChar '/' trimmed
    let up_count := (parts.takeWhile fun p => p = "..".data).length
    let path_parts := parts.dropWhile fun p => p = "..".data
    let remaining_base :=
      if base_parts.length ≤ up_count then ([] : List (List Char))
      else base_parts.take (base_parts.length - up_count)
    let head :=
      if remaining_base.isEmpty then "/"
      else "/" ++ String.mk (List.intercalate ['/'] remaining_base) ++ "/"
    head ++ String.mk (List.intercalate ['/'] path_parts)
  else
    "/" ++ String.mk (trimBothMatches '/' base_path.data) ++ "/" ++ String.mk trimmed

/-- Quote-aware buffering of one tag after `<` (`replace_tag` lines
    90–111): update the single/double-quote state per character, stop at
    the first `>` seen outside quotes.  Returns the consumed characters
    (including the final `>` when found), the remaining input, and
    whether a closing `>` was found (`tag_content` stays empty when the
    input ran out first). -/
def readTagQuoted : List Char → Bool → Char → (List Char × List Char × Bool)
  | [], _, _ => ([], [], false)
  | c :: cs, inQ, qc =>
    let st : Bool × Char :=
      if c = '"' || c = '\'' then
        if inQ && c = qc then (false, qc)
        else if !inQ then (true, c)
        else (inQ, qc)
      else (inQ, qc)
    if c = '>' && !st.1 then ([c], cs, true)
    else
      let r := readTagQuoted cs st.1 st.2
      (c :: r.1, r.2.1, r.2.2)

/-- Plain buffering of one tag after `<` up to the first `>` (the inner
    `potential_tag` loops of `replace_tag` and `highlight_code_blocks`,
    which track no quote state).  Returns consumed characters, remaining
    input, and whether a `>` was found. -/
def readTagSimple : List Char → (List Char × List Char × Bool)
  | [] => ([], [], false)
  | c :: cs =>
    if c = '>' then ([c], cs, true)
    else
      let r := readTagSimple cs
      (c :: r.1, r.2.1, r.2.2)

/-- Inner-content scan of `replace_tag` (lines 120–152): starting just
    after a matched opening tag at depth 1, accumulate raw inner markup,
    incrementing the depth at each further same-name opening tag and
    decrementing at each `</name>`; stop when the depth reaches zero
    (consuming that closer without accumulating it) or the input runs
    out.  Returns the accumulated inner content and the rest. -/
def scanInner (tagName : String) : Nat → List Char → Nat → List Char → (List Char × List Char)
  | 0, cs, _, inner => (inner, cs)
  | fuel + 1, cs, depth, inner =>
    if depth = 0 then (inner, cs)
    else
      match cs with
      | [] => (inner, [])
      | c :: rest =>
        if c = '<' then
          let r := readTagSimple rest
          let potential := '<' :: r.1
          if potential = ("</" ++ tagName ++ ">").data then
            if depth - 1 = 0 then (inner, r.2.1)
            else scanInner tagName fuel r.2.1 (depth - 1) (inner ++ potential)
          else if ("<" ++ tagName ++ " ").data.isPrefixOf potential
              || potential = ("<" ++ tagName ++ ">").data then
            scanInner tagName fuel r.2.1 (depth + 1) (inner ++ potential)
          else
            scanInner tagName fuel r.2.1 depth (inner ++ potential)
        else
          scanInner tagName fuel rest depth (inner ++ [c])

/-- Main scan of `Renderer::replace_tag`: on `<`, buffer the tag with
    quote awareness; if it opens the component's tag name, collect the
    inner content (for non-self-closing tags), build the render context
    (URL attributes passed through `resolve_path`, non-empty inner
    content under `content`), and render the template.  On render
    success the rendered text replaces the whole element; on render
    failure the already-emitted opening tag stays but the consumed inner
    content and closer are not re-emitted.  Non-matching tags and plain
    characters pass through. -/
def replaceTagGo (tagName : String) (tera : TeraM) (templateName basePath : String) :
    Nat → List Char → List Char
  | 0, _ => []
  | fuel + 1, cs =>
    match cs with
    | [] => []
    | c :: rest =>
      if c = '<' then
        let r := readTagQuoted rest false ' '
        let pushed := '<' :: r.1
        let tagContent := if r.2.2 then pushed else []
        if ("<" ++ tagName ++ " ").data.isPrefixOf tagContent
            || tagContent = ("<" ++ tagName ++ ">").data then
          let attrs := extract_attributes (String.mk tagContent)
          let scanned :=
            if !("/>".data.isSuffixOf tagContent) then
              scanInner tagName (r.2.1.length + 1) r.2.1 1 []
            else ([], r.2.1)
          let ctx0 := attrs.foldl
            (fun ctx kv =>
              if is_url_attribute kv.1 then
                ctxInsert ctx kv.1 (resolve_path kv.2 basePath)
              else
                ctxInsert ctx kv.1 kv.2)
            []
          let ctx :=
            if !scanned.1.isEmpty then ctxInsert ctx0 "content" (String.mk scanned.1)
            else ctx0
          match tera.render templateName ctx with
          | some rendered =>
            rendered.data ++ replaceTagGo tagName tera templateName basePath fuel scanned.2
          | none =>
            pushed ++ replaceTagGo tagName tera templateName basePath fuel scanned.2
        else
          pushed ++ replaceTagGo tagName tera templateName basePath fuel r.2.1
      else
        c :: replaceTagGo tagName tera templateName basePath fuel rest

/-- Embeds `Renderer::replace_tag`: run the scan over the whole input; the
    function never constructs an error. -/
def replace_tag (html : String) (tag_name : String) (tera : TeraM)
    (template_name base_path : String) : Except String String :=
  Except.ok (String.mk
    (replaceTagGo tag_name tera template_name base_path (html.data.length + 1) html.data))

/-- The fixed scan list of `Renderer::post_process_components`. -/
def tag_patterns : List String :=
  ["img", "code", "pre", "blockquote", "table", "a", "h1", "h2", "h3",
   "h4", "h5", "h6", "p", "ul", "ol", "li", "strong", "em", "del"]

/-- Embeds `Renderer::post_process_components`: for each tag name in the scan
    list whose component template exists, rewrite the current HTML with
    `replace_tag`; names without a registered template are skipped. -/
def post_process_components (html : String) (tera : TeraM) (base_path : String) :
    Except String String :=
  tag_patterns.foldlM
    (fun result tag_name =>
      let template_name := "components/" ++ tag_name ++ ".html"
      if !tera.hasTemplate template_name then pure result
      else replace_tag result tag_name tera template_name base_path)
    html

/-! ## `renderer.rs`: the syntax-highlight transformer

The syntect highlighter is external; it enters as a function from code
and language token to the finalized span markup (`none` models a
line-parse error). -/

/-- Embeds `Renderer::decode_html_entities`: the five sequential replacements. -/
def decode_html_entities (l : List Char) : List Char :=
  let r1 := replaceAllL "&lt;".data "<".data (l.length + 1) l
  let r2 := replaceAllL "&gt;".data ">".data (r1.length + 1) r1
  let r3 := replaceAllL "&amp;".data "&".data (r2.length + 1) r2
  let r4 := replaceAllL "&quot;".data "\"".data (r3.length + 1) r3
  replaceAllL "&#39;".data "'".data (r4.length + 1) r4

/-- Embeds `Renderer::highlight_code`: run the external highlighter and wrap its
    output in the fixed `<pre class="syntax-highlight"><code>` shell. -/
def highlight_code (hl : String → String → Option String) (code lang : String) :
    Option String :=
  (hl code lang).map fun body =>
    "<pre class=\"syntax-highlight\"><code>" ++ body ++ "</code></pre>"

/-- Embeds `Renderer::process_pre_content`: trim, require a leading `<code`,
    extract the language from a `class="language-…"` attribute, slice the
    code between the first `>` and the last `</code>`, entity-decode it,
    and highlight; any missing piece yields `none` (keep the original). -/
def process_pre_content (hl : String → String → Option String) (content : String) :
    Option String :=
  let c := trimWsL content.data
  if !("<code".data.isPrefixOf c) then none
  else
    let lang : Option (List Char) :=
      match findSubstr "class=\"language-".data c with
      | some class_start =>
        let lang_start := class_start + "class=\"language-".length
        match findSubstr ['"'] (c.drop lang_start) with
        | some quote_end => some ((c.drop lang_start).take quote_end)
        | none => none
      | none => none
    match findSubstr ['>'] c with
    | none => none
    | some gtIdx =>
      let code_start := gtIdx + 1
      match rfindSubstr "</code>".data c with
      | none => none
      | some code_end =>
        let code := (c.drop code_start).take (code_end - code_start)
        let decoded := decode_html_entities code
        match lang with
        | some language => highlight_code hl (String.mk decoded) (String.mk language)
        | none => none

/-- Pre-content collection loop of `Renderer::highlight_code_blocks`
    (lines 338–376): accumulate everything after a `<pre …>` opening tag;
    tags are buffered to the first `>` with no quote tracking, the depth
    is only ever decremented (there is no increment for nested `<pre>`
    openings), so the first `</pre>` token ends the region.  On the
    closer, a successful `process_pre_content` replaces the whole region
    (opening tag included); otherwise the original region is re-emitted.
    If the input runs out first, the collected content is dropped.
    Returns the output contribution for the region and the rest. -/
def collectPre (hl : String → String → Option String) (tagBuf : List Char) :
    Nat → List Char → Nat → List Char → (List Char × List Char)
  | 0, cs, _, _ => (tagBuf, cs)
  | fuel + 1, cs, depth, preContent =>
    if depth = 0 then (tagBuf, cs)
    else
      match cs with
      | [] => (tagBuf, [])
      | c :: rest =>
        if c = '<' then
          let r := readTagSimple rest
          let potential := '<' :: r.1
          if potential = "</pre>".data then
            if depth - 1 = 0 then
              match process_pre_content hl (String.mk preContent) with
              | some highlighted => (highlighted.data, r.2.1)
              | none => (tagBuf ++ preContent ++ "</pre>".data, r.2.1)
            else collectPre hl tagBuf fuel r.2.1 (depth - 1) (preContent ++ potential)
          else
            collectPre hl tagBuf fuel r.2.1 depth (preContent ++ potential)
        else
          collectPre hl tagBuf fuel rest depth (preContent ++ [c])

/-- Main scan of `Renderer::highlight_code_blocks`: buffer each tag to
    the first `>` (no quote tracking); a buffered tag starting with
    `<pre>` or `<pre ` opens a pre region handled by `collectPre`. -/
def highlightGo (hl : String → String → Option String) : Nat → List Char → List Char
  | 0, _ => []
  | fuel + 1, cs =>
    match cs with
    | [] => []
    | c :: rest =>
      if c = '<' then
        let r := readTagSimple rest
        let tagBuf := '<' :: r.1
        let isPre := r.2.2 &&
          ("<pre>".data.isPrefixOf tagBuf || "<pre ".data.isPrefixOf tagBuf)
        if isPre then
          let collected := collectPre hl tagBuf (r.2.1.length + 1) r.2.1 1 []
          collected.1 ++ highlightGo hl fuel collected.2
        else
          tagBuf ++ highlightGo hl fuel r.2.1
      else
        c :: highlightGo hl fuel rest

/-- Embeds `Renderer::highlight_code_blocks` over the whole input. -/
def highlight_code_blocks (hl : String → String → Option String) (html : String) : String :=
  String.mk (highlightGo hl (html.data.length + 1) html.data)

/-- Embeds `Renderer::render_markdown_with_components`: markdown-render (the
    external `pulldown_cmark` pass enters as `md`), then apply syntax
    highlighting, then apply the component templates. -/
def render_markdown_with_components (md : String → String)
    (hl : String → String → Option String) (tera : TeraM)
    (markdown base_path : String) : Except String String :=
  let html_output := md markdown
  let highlighted := highlight_code_blocks hl html_output
  post_process_components highlighted tera base_path

/-! ## Spec-described scanning for the syntax-highlight transformer -/

/-- Modelled from the spec: the pre-content collection that §4.6 claims —
    the same same-tag nesting-depth technique as the component
    transformer, i.e. the depth is incremented at each further `<pre …>`
    or `<pre>` opening and decremented at each `</pre>`, so the region
    ends at the matching closer.  Used only for comparison with the
    source's `collectPre`. -/
def collectPreSpec (hl : String → String → Option String) (tagBuf : List Char) :
    Nat → List Char → Nat → List Char → (List Char × List Char)
  | 0, cs, _, _ => (tagBuf, cs)
  | fuel + 1, cs, depth, preContent =>
    if depth = 0 then (tagBuf, cs)
    else
      match cs with
      | [] => (tagBuf, [])
      | c :: rest =>
        if c = '<' then
          let r := readTagSimple rest
          let potential := '<' :: r.1
          if potential = "</pre>".data then
            if depth - 1 = 0 then
              match process_pre_content hl (String.mk preContent) with
              | some highlighted => (highlighted.data, r.2.1)
              | none => (tagBuf ++ preContent ++ "</pre>".data, r.2.1)
            else collectPreSpec hl tagBuf fuel r.2.1 (depth - 1) (preContent ++ potential)
          else if "<pre ".data.isPrefixOf potential || potential = "<pre>".data then
            collectPreSpec hl tagBuf fuel r.2.1 (depth + 1) (preContent ++ potential)
          else
            collectPreSpec hl tagBuf fuel r.2.1 depth (preContent ++ potential)
        else
          collectPreSpec hl tagBuf fuel rest depth (preContent ++ [c])

/-- Modelled from the spec: the scan that §4.6 claims for the
    syntax-highlight transformer — the same quote-aware tag buffering as
    the component transformer's opening-tag scan, and nesting-depth
    tracking for nested `<pre>` elements.  Used only for comparison with
    the source's `highlightGo`. -/
def highlightSpecGo (hl : String → String → Option String) : Nat → List Char → List Char
  | 0, _ => []
  | fuel + 1, cs =>
    match cs with
    | [] => []
    | c :: rest =>
      if c = '<' then
        let r := readTagQuoted rest false ' '
        let tagBuf := '<' :: r.1
        let isPre := r.2.2 &&
          ("<pre>".data.isPrefixOf tagBuf || "<pre ".data.isPrefixOf tagBuf)
        if isPre then
          let collected := collectPreSpec hl tagBuf (r.2.1.length + 1) r.2.1 1 []
          collected.1 ++ highlightSpecGo hl fuel collected.2
        else
          tagBuf ++ highlightSpecGo hl fuel r.2.1
      else
        c :: highlightSpecGo hl fuel rest

/-- Modelled from the spec: whole-input wrapper of `highlightSpecGo`. -/
def highlight_code_blocks_spec (hl : String → String → Option String) (html : String) : String :=
  String.mk (highlightSpecGo hl (html.data.length + 1) html.data)

/-! ## `types.rs`, `parallel.rs` and the per-file sweep of `main.rs`

The collaborators called by `process_post_parallel` — the file system
hash, the frontmatter parser, the shortcode registry, the markdown
renderer and the page generator — are external to the scan and enter as
the fields of an environment record; `needs_rebuild` is the embedded
`cache.rs` function. -/

/-- Embeds the `types.rs` `Frontmatter` (the date is carried as its string form). -/
structure Frontmatter where
  title : String
  date : String
  category : String
  tags : List String
  featured_image : Option String
  description : Option String
  draft : Bool
deriving DecidableEq, Repr

/-- Embeds the `types.rs` `Post` as constructed by `Parser::parse_file`. -/
structure Post where
  slug : String
  category : String
  frontmatter : Frontmatter
  content : String
  rendered_html : Option String
deriving DecidableEq, Repr

/-- Embeds the `parallel.rs` `SkipReason`. -/
inductive SkipReason where
  | Cached
  | Draft
deriving DecidableEq, Repr

/-- Embeds the `parallel.rs` `BuildResult`. -/
inductive BuildResult where
  | Success (path slug category : String) (frontmatter : Frontmatter)
      (file_hash template_hash output_path : String)
  | Skipped (path : String) (reason : SkipReason)
  | Error (path : String) (error : String)
deriving DecidableEq, Repr

/-- Environment of collaborator calls made by `process_post_parallel`
    (`main.rs`): each fallible step is a function returning `Except`. -/
structure PostEnv where
  hash_file : String → Except String String
  cache : BuildCache
  template_hash : String
  use_cache : Bool
  parse_file : String → Except String Post
  shortcode_process : String → Except String String
  render : String → String → Except String String
  generate_post : Post → Except String String

/-- Embeds `process_post_parallel` (`main.rs` lines 597–697): hash, cache
    check, parse, draft check, shortcodes, render, generate; each failing
    step returns `BuildResult.Error` with the path and the step's
    message, each passing run ends in `Success`. -/
def process_post_parallel (env : PostEnv) (path : String) : BuildResult :=
  match env.hash_file path with
  | .error e => .Error path e
  | .ok file_hash =>
    if env.use_cache && !(env.cache.needs_rebuild path file_hash env.template_hash) then
      .Skipped path .Cached
    else
      match env.parse_file path with
      | .error e => .Error path e
      | .ok post =>
        if post.frontmatter.draft then .Skipped path .Draft
        else
          match env.shortcode_process post.content with
          | .error e => .Error path e
          | .ok processed_content =>
            let base_path := post.category
            match env.render processed_content base_path with
            | .error e => .Error path e
            | .ok html =>
              let post := { post with rendered_html := some html }
              match env.generate_post post with
              | .error e => .Error path e
              | .ok output_path =>
                .Success path post.slug post.category post.frontmatter
                  file_hash env.template_hash output_path

/-- The per-file scan over a worker's stream of paths: every path is
    processed independently and yields exactly one result. -/
def sweep_posts (env : PostEnv) (paths : List String) : List BuildResult :=
  paths.map (process_post_parallel env)

/-! ## Result aggregation of `build_all_parallel` (`main.rs`)

The externally visible effects of the aggregation loop — metadata
upserts, cache entry updates, and the two save calls — are recorded as
an action trace, together with the terminal outcome. -/

/-- Effects performed while the main thread drains the collected
    results. -/
inductive AggAction where
  | upsertPost (slug category : String)
  | updateEntry (path file_hash template_hash output_path : String)
  | cacheSave
  | metadataSave
deriving DecidableEq, Repr

/-- Per-result effects of the aggregation loop: a `Success` upserts
    metadata and updates the cache entry, the other results only log. -/
def successActions : BuildResult → List AggAction
  | .Success path slug category _ file_hash template_hash output_path =>
    [.upsertPost slug category, .updateEntry path file_hash template_hash output_path]
  | _ => []

/-- The errors collected by the aggregation loop. -/
def resultErrors : List BuildResult → List (String × String)
  | [] => []
  | .Error p e :: rs => (p, e) :: resultErrors rs
  | _ :: rs => resultErrors rs

/-- Result aggregation of `build_all_parallel` (`main.rs` lines
    455–505): drain every result, applying the in-memory updates of each
    `Success` and collecting each `Error`; if any error was collected,
    bail out with "`n` posts failed to build" before the save calls;
    otherwise save the cache (when caching is on) and the metadata. -/
def aggregate_results (use_cache : Bool) (results : List BuildResult) :
    List AggAction × Except String Unit :=
  let folded := results.foldl
    (fun acc r =>
      match r with
      | BuildResult.Success path slug category _ fh th op =>
        (acc.1 ++ [AggAction.upsertPost slug category,
                   AggAction.updateEntry path fh th op], acc.2)
      | BuildResult.Skipped _ _ => acc
      | BuildResult.Error path e => (acc.1, acc.2 ++ [(path, e)]))
    (([], []) : List AggAction × List (String × String))
  if folded.2.isEmpty then
    (folded.1 ++ (if use_cache then [AggAction.cacheSave] else []) ++ [AggAction.metadataSave],
      Except.ok ())
  else
    (folded.1, Except.error (toString folded.2.length ++ " posts failed to build"))

/-! ## Concrete fixtures for witnesses and counterexamples -/

/-- Echo highlighter: the external highlighter always succeeds and
    returns the code unchanged. -/
def hlEcho : String → String → Option String := fun code _ => some code

/-- Template engine with only the `code` component registered, rendering
    every match to `X`. -/
def teraCode : TeraM :=
  ⟨fun n => n = "components/code.html",
   fun n _ => if n = "components/code.html" then some "X" else none⟩

/-- Template engine with only the `a` component registered, rendering a
    match to its captured inner content in brackets. -/
def teraA : TeraM :=
  ⟨fun n => n = "components/a.html",
   fun n ctx =>
     if n = "components/a.html" then
       some ("[" ++ ((ctx.lookup "content").getD "") ++ "]")
     else none⟩

/-- Template engine with the `a` component registered but whose
    rendering always fails. -/
def teraFail : TeraM := ⟨fun n => n = "components/a.html", fun _ _ => none⟩

/-- Template engine with no component template registered at all. -/
def teraNone : TeraM := ⟨fun _ => false, fun _ _ => none⟩

/-- A concrete non-draft frontmatter. -/
def fmEx : Frontmatter := ⟨"t", "2024-01-01", "dev", [], none, none, false⟩

/-- A concrete parsed post. -/
def postEx : Post := ⟨"slug", "dev", fmEx, "body", none⟩

/-- A drained result queue holding one success and one error. -/
def exResults : List BuildResult :=
  [BuildResult.Success "a.md" "a" "dev" fmEx "h1" "t1" "out/a",
   BuildResult.Error "b.md" "boom"]

/-- Environment in which every collaborator step succeeds. -/
def envBase : PostEnv where
  hash_file := fun _ => Except.ok "h1"
  cache := ⟨"0", []⟩
  template_hash := "t1"
  use_cache := false
  parse_file := fun _ => Except.ok postEx
  shortcode_process := fun c => Except.ok c
  render := fun _ _ => Except.ok "<p>x</p>"
  generate_post := fun _ => Except.ok "out"

/-- Environment whose file hashing fails. -/
def envHashFail : PostEnv := { envBase with hash_file := fun _ => Except.error "io error" }

/-- Environment whose frontmatter parsing fails. -/
def envParseFail : PostEnv := { envBase with parse_file := fun _ => Except.error "parse error" }

/-- Environment whose shortcode processing fails. -/
def envShortFail : PostEnv :=
  { envBase with shortcode_process := fun _ => Except.error "shortcode error" }

/-- Environment whose markdown rendering fails. -/
def envRenderFail : PostEnv := { envBase with render := fun _ _ => Except.error "render error" }

/-- Environment whose output generation fails. -/
def envGenFail : PostEnv :=
  { envBase with generate_post := fun _ => Except.error "generate error" }

/-! ## Theorems -/

/-- Structure eta for strings. -/
theorem string_mk_data (s : String) : String.mk s.data = s := rfl

/-- A candidate prefix whose first character is not `'.'` is not a prefix
    of a character list starting with `'.'`. -/
theorem isPrefixOf_false_of_head_ne {a b : Char} {as bs : List Char} (h : a ≠ b) :
    (a :: as).isPrefixOf (b :: bs) = false := by
  simp [List.isPrefixOf, h]

/-- A character list with a verified `"./"` prefix starts with `'.'`
    followed by `'/'`. -/
theorem data_shape_of_dotSlash_prefix {l : List Char}
    (h : "./".data.isPrefixOf l = true) : ∃ t, l = '.' :: '/' :: t := by
  cases l with
  | nil => exact absurd h (by decide)
  | cons c cs =>
    cases cs with
    | nil =>
      rw [show ("./".data : List Char) = '.' :: '/' :: [] from rfl] at h
      rw [List.isPrefixOf_cons₂] at h
      simp at h
    | cons c2 cs2 =>
      rw [show ("./".data : List Char) = '.' :: '/' :: [] from rfl] at h
      rw [List.isPrefixOf_cons₂, List.isPrefixOf_cons₂] at h
      simp only [Bool.and_eq_true, beq_iff_eq] at h
      exact ⟨cs2, by rw [h.1, h.2.1]⟩

/-- The list `resultErrors` is non-empty whenever an `Error` result is present. -/
theorem resultErrors_ne_nil {p e : String} {results : List BuildResult}
    (h : BuildResult.Error p e ∈ results) : resultErrors results ≠ [] := by
  induction results with
  | nil => cases h
  | cons r rs ih =>
    rcases List.mem_cons.mp h with h' | h'
    · rw [← h']
      simp [resultErrors]
    · cases r with
      | Error p' e' => simp [resultErrors]
      | Success path slug category fm fh th op => simpa [resultErrors] using ih h'
      | Skipped path reason => simpa [resultErrors] using ih h'

/-- No per-result update is a save action. -/
theorem saves_not_mem_successActions (r : BuildResult) :
    AggAction.cacheSave ∉ successActions r ∧ AggAction.metadataSave ∉ successActions r := by
  cases r <;> simp [successActions]

/-- Skipping every unregistered tag name leaves the folded HTML
    untouched. -/
theorem foldlM_components_skip (tera : TeraM) (base_path : String) :
    ∀ (l : List String) (html : String),
      (∀ t ∈ l, tera.hasTemplate ("components/" ++ t ++ ".html") = false) →
      l.foldlM
        (fun result tag_name =>
          let template_name := "components/" ++ tag_name ++ ".html"
          if !tera.hasTemplate template_name then pure result
          else replace_tag result tag_name tera template_name base_path)
        html = Except.ok html := by
  intro l
  induction l with
  | nil => intro html _; rfl
  | cons t ts ih =>
    intro html h
    have ht := h t (List.mem_cons_self t ts)
    have hts : ∀ u ∈ ts, tera.hasTemplate ("components/" ++ u ++ ".html") = false :=
      fun u hu => h u (List.mem_cons_of_mem t hu)
    simp only [List.foldlM_cons, ht]
    simpa using ih html hts

theorem hashFeed_fold (readFile : String → Option String) (l : List String) (acc : List String) :
    l.foldl
      (fun hasher p =>
        match readFile p with
        | some content => hasher ++ [p, content]
        | none => hasher)
      acc = acc ++ hashFeed readFile l := by
  induction l generalizing acc with
  | nil => simp [hashFeed]
  | cons p ps ih =>
    cases h : readFile p with
    | none =>
      simp only [List.foldl_cons, h, ih, hashFeed, List.filter_cons]
      simp [h]
    | some content =>
      simp only [List.foldl_cons, h, ih, hashFeed, List.filter_cons]
      simp [h]

/-- Claim C3: with a stored entry `(a, b)` for the path, `needs_rebuild`
    at current hashes `(c, d)` is true exactly when `a ≠ c` or `b ≠ d`;
    with no stored entry it is always true. -/
theorem needs_rebuild_spec (v : String) (entries : List (String × CacheEntry))
    (path a b c d op bt : String) :
    (entries.lookup path = some ⟨a, b, op, bt⟩ →
      (BuildCache.needs_rebuild ⟨v, entries⟩ path c d = true ↔ (a ≠ c ∨ b ≠ d)))
    ∧ (entries.lookup path = none →
      BuildCache.needs_rebuild ⟨v, entries⟩ path c d = true) := by
  constructor
  · intro h
    simp [BuildCache.needs_rebuild, h]
  · intro h
    simp [BuildCache.needs_rebuild, h]

/-- Witness for C3 at a concrete cache: the stored entry is `("a", "b")`,
    the current hashes are `("a", "x")`, so a rebuild is required. -/
theorem needs_rebuild_spec_witness :
    BuildCache.needs_rebuild ⟨"1", [("p", ⟨"a", "b", "o", "t"⟩)]⟩ "p" "a" "x" = true ∧
    BuildCache.needs_rebuild ⟨"1", []⟩ "q" "a" "x" = true := by
  constructor
  · exact ((needs_rebuild_spec "1" [("p", ⟨"a", "b", "o", "t"⟩)] "p" "a" "b" "a" "x" "o" "t").1
      (by decide)).mpr (Or.inr (by decide))
  · exact (needs_rebuild_spec "1" [] "q" "a" "b" "a" "x" "o" "t").2 (by decide)

/-- Claim C10: `hash_directory` digests exactly the readable regular
    files (in sorted order, path bytes then content bytes), silently
    omitting files that fail to read and walk results that are
    enumeration errors, and it returns `Ok` for every walk. -/
theorem hash_directory_spec (walk : List WalkEntry) (readFile : String → Option String) :
    hash_directory walk readFile =
      Except.ok (hashFeed readFile (sortPaths
        (((walk.filterMap fun e =>
            match e with
            | .err _ => none
            | .entry p isFile => some (p, isFile)).filter (fun e => e.2)).map Prod.fst)))
    ∧ (hash_directory walk readFile).isOk = true
    ∧ hash_directory walk readFile = hash_directory (walkOk walk) readFile := by
  refine ⟨?_, ?_, ?_⟩
  · simp [hash_directory, hashFeed_fold]
  · simp [hash_directory, Except.isOk, Except.toBool]
  · have h : (walkOk walk).filterMap
        (fun e => match e with
          | .err _ => none
          | .entry p isFile => some (p, isFile)) =
        walk.filterMap
        (fun e => match e with
          | .err _ => none
          | .entry p isFile => some (p, isFile)) := by
      induction walk with
      | nil => simp [walkOk]
      | cons e es ih =>
        cases e with
        | err s => simpa [walkOk, List.filter_cons] using ih
        | entry p isFile =>
          simp only [walkOk, List.filter_cons] at ih ⊢
          simp [ih]
    simp [hash_directory, h]

theorem aggregate_fold_spec (results : List BuildResult)
    (acc : List AggAction × List (String × String)) :
    results.foldl
      (fun acc r =>
        match r with
        | BuildResult.Success path slug category _ fh th op =>
          (acc.1 ++ [AggAction.upsertPost slug category,
                     AggAction.updateEntry path fh th op], acc.2)
        | BuildResult.Skipped _ _ => acc
        | BuildResult.Error path e => (acc.1, acc.2 ++ [(path, e)]))
      acc =
      (acc.1 ++ (results.map successActions).flatten, acc.2 ++ resultErrors results) := by
  induction results generalizing acc with
  | nil => simp [resultErrors]
  | cons r rs ih =>
    cases r with
    | Success path slug category fm fh th op =>
      simp [ih, successActions, resultErrors]
    | Skipped p reason =>
      simp [ih, successActions, resultErrors]
    | Error p e =>
      simp [ih, successActions, resultErrors]

/-- Claim C1 (amended): in the per-file pipeline the
    SyntaxHighlightTransformer is applied to the rendered HTML first and
    the HtmlComponentTransformer second — for every input whose markdown
    rendering succeeds, the pipeline's output equals the component
    transformation applied to the syntax-highlighted HTML. -/
theorem render_pipeline_order (md : String → String) (hl : String → String → Option String)
    (tera : TeraM) (markdown base_path : String) :
    render_markdown_with_components md hl tera markdown base_path =
      post_process_components (highlight_code_blocks hl (md markdown)) tera base_path := rfl

/-- Counterexample to claim C1: at a concrete rendered input with a
    `code` component registered and a succeeding highlighter, the
    pipeline's output (highlight first, then components) differs from
    syntax-highlighting applied to the component-transformed HTML. -/
theorem render_pipeline_order_cex :
    render_markdown_with_components id hlEcho teraCode
        "<pre><code class=\"language-rust\">a</code></pre>" "dev"
      = Except.ok "<pre class=\"syntax-highlight\">X</pre>"
    ∧ (post_process_components (id "<pre><code class=\"language-rust\">a</code></pre>")
          teraCode "dev").map (highlight_code_blocks hlEcho)
      = Except.ok "<pre>X</pre>"
    ∧ render_markdown_with_components id hlEcho teraCode
        "<pre><code class=\"language-rust\">a</code></pre>" "dev"
      ≠ (post_process_components (id "<pre><code class=\"language-rust\">a</code></pre>")
          teraCode "dev").map (highlight_code_blocks hlEcho) := by
  refine ⟨rfl, rfl, ?_⟩
  intro hcontra
  have h1 : render_markdown_with_components id hlEcho teraCode
      "<pre><code class=\"language-rust\">a</code></pre>" "dev"
      = Except.ok "<pre class=\"syntax-highlight\">X</pre>" := rfl
  have h2 : (post_process_components (id "<pre><code class=\"language-rust\">a</code></pre>")
      teraCode "dev").map (highlight_code_blocks hlEcho)
      = Except.ok "<pre>X</pre>" := rfl
  rw [h1, h2] at hcontra
  simp only [Except.ok.injEq] at hcontra
  exact absurd hcontra (by decide)

/-- Claim C2 (amended): when at least one per-file `Error` result exists
    after the queue has drained, the in-memory cache and metadata
    updates from every `Success` result are applied during the drain,
    but the terminal build failure is returned before the persistence
    calls: neither `cache.save` nor `metadata.save` executes. -/
theorem aggregate_error_skips_saves (use_cache : Bool) (results : List BuildResult)
    (p e : String) (h : BuildResult.Error p e ∈ results) :
    (aggregate_results use_cache results).2 =
      Except.error (toString (resultErrors results).length ++ " posts failed to build")
    ∧ AggAction.cacheSave ∉ (aggregate_results use_cache results).1
    ∧ AggAction.metadataSave ∉ (aggregate_results use_cache results).1
    ∧ ∀ path slug cat fm fh th op,
        BuildResult.Success path slug cat fm fh th op ∈ results →
          AggAction.upsertPost slug cat ∈ (aggregate_results use_cache results).1
          ∧ AggAction.updateEntry path fh th op ∈ (aggregate_results use_cache results).1 := by
  have hne := resultErrors_ne_nil h
  have hE : (resultErrors results).isEmpty = false := by
    cases hres : resultErrors results with
    | nil => exact absurd hres hne
    | cons a l => rfl
  have hagg : aggregate_results use_cache results =
      ((results.map successActions).flatten,
        Except.error (toString (resultErrors results).length ++ " posts failed to build")) := by
    unfold aggregate_results
    rw [aggregate_fold_spec results ([], [])]
    simp [hE]
  refine ⟨by rw [hagg], ?_, ?_, ?_⟩
  · rw [hagg]
    simp only [List.mem_flatten, List.mem_map, not_exists, not_and]
    rintro l ⟨r, _, rfl⟩
    exact (saves_not_mem_successActions r).1
  · rw [hagg]
    simp only [List.mem_flatten, List.mem_map, not_exists, not_and]
    rintro l ⟨r, _, rfl⟩
    exact (saves_not_mem_successActions r).2
  · intro path slug cat fm fh th op hs
    rw [hagg]
    constructor
    · exact List.mem_flatten.mpr
        ⟨successActions (BuildResult.Success path slug cat fm fh th op),
          List.mem_map_of_mem successActions hs, by simp [successActions]⟩
    · exact List.mem_flatten.mpr
        ⟨successActions (BuildResult.Success path slug cat fm fh th op),
          List.mem_map_of_mem successActions hs, by simp [successActions]⟩

/-- Counterexample to claim C2: with one success and one error in the
    drained results, the aggregation returns the terminal failure while
    neither `cache.save` nor `metadata.save` appears in the performed
    effects (only the in-memory update of the success does). -/
theorem aggregate_error_skips_saves_cex :
    (aggregate_results true exResults).2 = Except.error "1 posts failed to build"
    ∧ AggAction.cacheSave ∉ (aggregate_results true exResults).1
    ∧ AggAction.metadataSave ∉ (aggregate_results true exResults).1
    ∧ AggAction.updateEntry "a.md" "h1" "t1" "out/a" ∈ (aggregate_results true exResults).1 := by
  refine ⟨rfl, by decide, by decide, by decide⟩

/-- Witness for claim C2 (amended) at the concrete drained results. -/
theorem aggregate_error_skips_saves_witness :
    (aggregate_results true exResults).2 = Except.error "1 posts failed to build"
    ∧ AggAction.upsertPost "a" "dev" ∈ (aggregate_results true exResults).1 := by
  have h := aggregate_error_skips_saves true exResults "b.md" "boom" (by decide)
  exact ⟨h.1, (h.2.2.2 "a.md" "a" "dev" fmEx "h1" "t1" "out/a" (by decide)).1⟩

/-- Claim C4: the sweep yields one result per path regardless of
    failures, and every failing step — hashing, parsing, shortcode
    processing, rendering, output generation — is captured locally as
    `BuildResult.Error` carrying the path and the step's message. -/
theorem process_post_errors (env : PostEnv) (paths : List String) (path : String) :
    (sweep_posts env paths).length = paths.length
    ∧ (path ∈ paths → process_post_parallel env path ∈ sweep_posts env paths)
    ∧ (∀ e, env.hash_file path = Except.error e →
        process_post_parallel env path = BuildResult.Error path e)
    ∧ (∀ fh e, env.hash_file path = Except.ok fh →
        (env.use_cache && !(env.cache.needs_rebuild path fh env.template_hash)) = false →
        env.parse_file path = Except.error e →
        process_post_parallel env path = BuildResult.Error path e)
    ∧ (∀ fh post e, env.hash_file path = Except.ok fh →
        (env.use_cache && !(env.cache.needs_rebuild path fh env.template_hash)) = false →
        env.parse_file path = Except.ok post → post.frontmatter.draft = false →
        env.shortcode_process post.content = Except.error e →
        process_post_parallel env path = BuildResult.Error path e)
    ∧ (∀ fh post pc e, env.hash_file path = Except.ok fh →
        (env.use_cache && !(env.cache.needs_rebuild path fh env.template_hash)) = false →
        env.parse_file path = Except.ok post → post.frontmatter.draft = false →
        env.shortcode_process post.content = Except.ok pc →
        env.render pc post.category = Except.error e →
        process_post_parallel env path = BuildResult.Error path e)
    ∧ (∀ fh post pc html e, env.hash_file path = Except.ok fh →
        (env.use_cache && !(env.cache.needs_rebuild path fh env.template_hash)) = false →
        env.parse_file path = Except.ok post → post.frontmatter.draft = false →
        env.shortcode_process post.content = Except.ok pc →
        env.render pc post.category = Except.ok html →
        env.generate_post { post with rendered_html := some html } = Except.error e →
        process_post_parallel env path = BuildResult.Error path e) := by
  refine ⟨?_, ?_, ?_, ?_, ?_, ?_, ?_⟩
  · simp [sweep_posts]
  · intro hmem
    exact List.mem_map_of_mem (process_post_parallel env) hmem
  · intro e he
    simp [process_post_parallel, he]
  · intro fh e h1 h2 h3
    simp [process_post_parallel, h1, h2, h3]
  · intro fh post e h1 h2 h3 h4 h5
    simp [process_post_parallel, h1, h2, h3, h4, h5]
  · intro fh post pc e h1 h2 h3 h4 h5 h6
    simp [process_post_parallel, h1, h2, h3, h4, h5, h6]
  · intro fh post pc html e h1 h2 h3 h4 h5 h6 h7
    simp [process_post_parallel, h1, h2, h3, h4, h5, h6, h7]

/-- Witness for claim C4: each of the five step failures at a concrete
    environment produces the corresponding `Error` result, and a failing
    path's result still appears in the sweep. -/
theorem process_post_errors_witness :
    process_post_parallel envHashFail "p.md" = BuildResult.Error "p.md" "io error"
    ∧ process_post_parallel envParseFail "p.md" = BuildResult.Error "p.md" "parse error"
    ∧ process_post_parallel envShortFail "p.md" = BuildResult.Error "p.md" "shortcode error"
    ∧ process_post_parallel envRenderFail "p.md" = BuildResult.Error "p.md" "render error"
    ∧ process_post_parallel envGenFail "p.md" = BuildResult.Error "p.md" "generate error"
    ∧ process_post_parallel envHashFail "p.md" ∈ sweep_posts envHashFail ["a.md", "p.md"] := by
  refine ⟨?_, ?_, ?_, ?_, ?_, ?_⟩
  · exact (process_post_errors envHashFail [] "p.md").2.2.1 "io error" rfl
  · exact (process_post_errors envParseFail [] "p.md").2.2.2.1 "h1" "parse error" rfl rfl rfl
  · exact (process_post_errors envShortFail [] "p.md").2.2.2.2.1 "h1" postEx "shortcode error"
      rfl rfl rfl rfl rfl
  · exact (process_post_errors envRenderFail [] "p.md").2.2.2.2.2.1 "h1" postEx "body"
      "render error" rfl rfl rfl rfl rfl rfl
  · exact (process_post_errors envGenFail [] "p.md").2.2.2.2.2.2 "h1" postEx "body" "<p>x</p>"
      "generate error" rfl rfl rfl rfl rfl rfl rfl
  · exact (process_post_errors envHashFail ["a.md", "p.md"] "p.md").2.1 (by decide)

/-- Claim C5: when no component template is registered for any scanned
    tag name, the component transformer's output is byte-identical to
    its input. -/
theorem no_component_identity (tera : TeraM) (html base_path : String)
    (h : ∀ t ∈ tag_patterns, tera.hasTemplate ("components/" ++ t ++ ".html") = false) :
    post_process_components html tera base_path = Except.ok html :=
  foldlM_components_skip tera base_path tag_patterns html h

/-- Witness for claim C5: a template engine with nothing registered
    leaves a concrete input unchanged. -/
theorem no_component_identity_witness :
    post_process_components "<p>hello <a href=\"x\">y</a></p>" teraNone "b" =
      Except.ok "<p>hello <a href=\"x\">y</a></p>" :=
  no_component_identity teraNone "<p>hello <a href=\"x\">y</a></p>" "b" (fun _ _ => rfl)

/-- Claim C6: on `<div><a href="x"><a href="y">Z</a></a></div>` with an
    `a` component registered, the inner-content scan for the outer `<a>`
    tracks the nesting depth through the same-named inner anchor: the
    captured inner content is `<a href="y">Z</a>`, the consumed closer is
    the final `</a>` (leaving `</div>`), and the transformer rewrites the
    whole outer element accordingly. -/
theorem nested_anchor_pairing :
    scanInner "a" ("<a href=\"y\">Z</a></a></div>".data.length + 1)
        "<a href=\"y\">Z</a></a></div>".data 1 [] =
      ("<a href=\"y\">Z</a>".data, "</div>".data)
    ∧ replace_tag "<div><a href=\"x\"><a href=\"y\">Z</a></a></div>" "a" teraA
        "components/a.html" "posts/dev" = Except.ok "<div>[<a href=\"y\">Z</a>]</div>" :=
  ⟨by decide, rfl⟩

/-- Claim C7 (amended): `highlight_code_blocks` buffers each tag only to
    the first `>` with no quote tracking and never increments its depth
    count, so the replaced region ends at the first `</pre>` token: on
    nested `<pre>` input the replacement stops at the inner closer and
    the outer `</pre>` is left dangling, and a quoted `>` inside the
    `<pre>` opening tag truncates the buffered tag so the inner
    structure no longer matches and the block is left unchanged. -/
theorem highlight_scan_behavior :
    highlight_code_blocks hlEcho
        "<pre><code class=\"language-t\">x</code><pre>y</pre></pre>"
      = "<pre class=\"syntax-highlight\"><code>x</code></pre></pre>"
    ∧ highlight_code_blocks hlEcho
        "<pre data-a=\"q>r\"><code class=\"language-t\">c</code></pre>"
      = "<pre data-a=\"q>r\"><code class=\"language-t\">c</code></pre>" := ⟨rfl, rfl⟩

/-- Counterexample to claim C7: on a nested-`<pre>` input and on an
    input with a quoted `>` in the opening tag's attributes, the
    source's scan differs from the spec-described scan that uses the
    component transformer's quote-aware buffering and nesting-depth
    technique. -/
theorem highlight_scan_cex :
    highlight_code_blocks hlEcho
        "<pre><code class=\"language-t\">x</code><pre>y</pre></pre>"
      ≠ highlight_code_blocks_spec hlEcho
        "<pre><code class=\"language-t\">x</code><pre>y</pre></pre>"
    ∧ highlight_code_blocks hlEcho
        "<pre data-a=\"q>r\"><code class=\"language-t\">c</code></pre>"
      ≠ highlight_code_blocks_spec hlEcho
        "<pre data-a=\"q>r\"><code class=\"language-t\">c</code></pre>" := by
  exact ⟨by decide, by decide⟩

/-- Claim C8: the four path-resolution literals hold, and in general —
    for values with no surrounding whitespace — absolute URLs, protocol-
    relative URLs, fragments, `data:` and `mailto:` values and values
    starting with `/` are returned unchanged, while `./`-prefixed and
    bare relative values are prefixed with `/<base_path>/`. -/
theorem resolve_path_spec :
    resolve_path "./x.png" "posts/dev" = "/posts/dev/x.png"
    ∧ resolve_path "../x.png" "posts/dev" = "/posts/x.png"
    ∧ resolve_path "https://x/y" "posts/dev" = "https://x/y"
    ∧ resolve_path "/abs/x" "posts/dev" = "/abs/x"
    ∧ (∀ s b : String, trimWsL s.data = s.data →
        ((("http://".data.isPrefixOf s.data || "https://".data.isPrefixOf s.data
            || "//".data.isPrefixOf s.data || "#".data.isPrefixOf s.data
            || "data:".data.isPrefixOf s.data || "mailto:".data.isPrefixOf s.data) = true →
          resolve_path s b = s)
        ∧ ("/".data.isPrefixOf s.data = true → resolve_path s b = s)
        ∧ ("./".data.isPrefixOf s.data = true →
            resolve_path s b =
              "/" ++ String.mk (trimBothMatches '/' b.data) ++ "/"
                ++ String.mk (s.data.drop 2))
        ∧ (("http://".data.isPrefixOf s.data || "https://".data.isPrefixOf s.data
            || "//".data.isPrefixOf s.data || "#".data.isPrefixOf s.data
            || "data:".data.isPrefixOf s.data || "mailto:".data.isPrefixOf s.data) = false →
            "/".data.isPrefixOf s.data = false →
            "./".data.isPrefixOf s.data = false →
            "../".data.isPrefixOf s.data = false →
            resolve_path s b =
              "/" ++ String.mk (trimBothMatches '/' b.data) ++ "/" ++ s))) := by
  refine ⟨by decide, by decide, by decide, by decide, ?_⟩
  intro s b htrim
  refine ⟨?_, ?_, ?_, ?_⟩
  · intro h
    simp only [resolve_path, htrim, h, if_true, string_mk_data]
  · intro h
    cases hC : ("http://".data.isPrefixOf s.data || "https://".data.isPrefixOf s.data
        || "//".data.isPrefixOf s.data || "#".data.isPrefixOf s.data
        || "data:".data.isPrefixOf s.data || "mailto:".data.isPrefixOf s.data) with
    | true => simp only [resolve_path, htrim, hC, if_true, string_mk_data]
    | false => simp only [resolve_path, htrim, hC, h, if_true, Bool.false_eq_true,
        if_false, string_mk_data]
  · intro h
    obtain ⟨t, ht⟩ := data_shape_of_dotSlash_prefix h
    have h1 : "http://".data.isPrefixOf s.data = false := by
      rw [ht]
      exact (isPrefixOf_false_of_head_ne (by decide) :
        ('h' :: "ttp://".data).isPrefixOf ('.' :: '/' :: t) = false)
    have h2 : "https://".data.isPrefixOf s.data = false := by
      rw [ht]
      exact (isPrefixOf_false_of_head_ne (by decide) :
        ('h' :: "ttps://".data).isPrefixOf ('.' :: '/' :: t) = false)
    have h3 : "//".data.isPrefixOf s.data = false := by
      rw [ht]
      exact (isPrefixOf_false_of_head_ne (by decide) :
        ('/' :: "/".data).isPrefixOf ('.' :: '/' :: t) = false)
    have h4 : "#".data.isPrefixOf s.data = false := by
      rw [ht]
      exact (isPrefixOf_false_of_head_ne (by decide) :
        ('#' :: ([] : List Char)).isPrefixOf ('.' :: '/' :: t) = false)
    have h5 : "data:".data.isPrefixOf s.data = false := by
      rw [ht]
      exact (isPrefixOf_false_of_head_ne (by decide) :
        ('d' :: "ata:".data).isPrefixOf ('.' :: '/' :: t) = false)
    have h6 : "mailto:".data.isPrefixOf s.data = false := by
      rw [ht]
      exact (isPrefixOf_false_of_head_ne (by decide) :
        ('m' :: "ailto:".data).isPrefixOf ('.' :: '/' :: t) = false)
    have h7 : "/".data.isPrefixOf s.data = false := by
      rw [ht]
      exact (isPrefixOf_false_of_head_ne (by decide) :
        ('/' :: ([] : List Char)).isPrefixOf ('.' :: '/' :: t) = false)
    simp only [resolve_path, htrim, h1, h2, h3, h4, h5, h6, h7, h, Bool.or_self,
      Bool.false_or, Bool.false_eq_true, if_false, if_true]
  · intro hC hSlash hDot hDots
    simp only [resolve_path, htrim, hC, hSlash, hDot, hDots, Bool.false_eq_true, if_false,
      string_mk_data]

/-- Witness for claim C8: the general clauses applied at concrete
    values — a `mailto:` value comes back unchanged, a `./`-value and a
    bare relative value are prefixed with the base path. -/
theorem resolve_path_spec_witness :
    resolve_path "mailto:a@b" "posts/dev" = "mailto:a@b"
    ∧ resolve_path "./y" "c" = "/c/y"
    ∧ resolve_path "img.png" "posts" = "/posts/img.png" := by
  refine ⟨?_, ?_, ?_⟩
  · exact ((resolve_path_spec.2.2.2.2 "mailto:a@b" "posts/dev" (by decide)).1 (by decide))
  · exact ((resolve_path_spec.2.2.2.2 "./y" "c" (by decide)).2.2.1 (by decide))
  · exact ((resolve_path_spec.2.2.2.2 "img.png" "posts" (by decide)).2.2.2
      (by decide) (by decide) (by decide) (by decide))

/-- Claim C9 (code bug): at a concrete matched element whose template
    render fails, `replace_tag` returns successfully but emits only the
    opening tag — the consumed inner content and closing tag are dropped
    instead of being left in place; and `replace_tag` never returns an
    error on any input. -/
theorem render_failure_drops_content :
    replace_tag "<a href=\"u\">Hi</a>" "a" teraFail "components/a.html" "posts"
      = Except.ok "<a href=\"u\">"
    ∧ ∀ (html tag_name template_name base_path : String) (tera : TeraM),
        (replace_tag html tag_name tera template_name base_path).isOk = true :=
  ⟨rfl, fun _ _ _ _ _ => rfl⟩

end Ssg
